import Mathlib

/-!
Verification development for the shuttle gateway / deployer control plane.

Each Rust function relevant to the checked properties is shallowly embedded
as an executable Lean definition. Stateful handlers are modelled as pure
functions from an explicit environment (the values the handler reads from
its stores and downstream calls) to a result together with a trace of the
side effects it performs, in order. Machine integers are Nat with explicit
reduction modulo 2^32 where Rust u32 overflow matters.
-/

/-! ## Data model: common/src/models/deployment.rs -/

/-- DeploymentState enum from common/src/models/deployment.rs. -/
inductive DeploymentState
  | queued | building | built | loading | running | completed | stopped | crashed | unknown
deriving DecidableEq, Repr

/-- The fields of a deployment that the gateway's delete flow reads
(common/src/models/deployment.rs DeploymentInfo, restricted to id, state,
last_update). Ids are abstracted to Nat, timestamps to Nat. -/
structure Deployment where
  id : Nat
  state : DeploymentState
  lastUpdate : Nat
deriving DecidableEq, Repr

/-- Error kinds used by the embedded handlers. Modelled from the spec:
the ErrorKind taxonomy of spec section 7 (common/src/models/error.rs is not
under src/); only the variants the embedded handlers produce are included. -/
inductive ErrorKind
  | projectCorrupted
  | projectHasBuildingDeployment
  | projectHasRunningDeployment
  | projectHasResources (failedToDelete : List String)
  | projectLimitExceeded
  | capacityExhausted
  | invalidCustomDomain
  | customDomainNotFound
  | badHost
  | internal
deriving DecidableEq, Repr

/-- Project states. Modelled from the spec: the state list of spec
section 4.5 (the gateway Project enum and common ProjectState live in files
not under src/). -/
inductive ProjectState
  | creating | attaching | recreating | starting | restarting | started | ready
  | stopping | stopped | rebooting | destroying | destroyed | errored
deriving DecidableEq, Repr

/-- Modelled from the spec: Project::is_ready (gateway project.rs is not
under src/); a project is ready exactly in the Ready state. -/
def ProjectState.isReady (s : ProjectState) : Bool := s == .ready

/-- Modelled from the spec: Project::is_stopped (gateway project.rs is not
under src/); a project is stopped exactly in the Stopped state. -/
def ProjectState.isStopped (s : ProjectState) : Bool := s == .stopped

/-! ## C1: gateway delete_project (src/gateway/src/api/latest.rs 446-552) -/

/-- The deployment states that do not block deletion: the handler's
matches-check on Running | Completed | Crashed | Stopped. -/
def goodDeleteState (s : DeploymentState) : Bool :=
  s == .running || s == .completed || s == .crashed || s == .stopped

/-- has_bad_state: some deployment is outside the allowed set. -/
def hasBadState (ds : List Deployment) : Bool :=
  ds.any fun d => !goodDeleteState d.state

/-- Stable insertion of a deployment into a list sorted by last_update
(helper for the handler's sort_by_key). -/
def insertByLastUpdate (d : Deployment) : List Deployment → List Deployment
  | [] => [d]
  | e :: es =>
    if d.lastUpdate ≤ e.lastUpdate then d :: e :: es else e :: insertByLastUpdate d es

/-- deployments.sort_by_key(|d| d.last_update), as a stable insertion sort. -/
def sortByLastUpdate : List Deployment → List Deployment
  | [] => []
  | d :: ds => insertByLastUpdate d (sortByLastUpdate ds)

/-- Side effects the delete_project handler performs, in order. -/
inductive GwEffect
  | restartTask
  | stopDeployment (id : Nat)
  | deleteResource (rtype : String)
  | deleteProjectTask
  | deleteProjectRow
deriving DecidableEq, Repr

/-- Everything the delete_project handler reads: the dry_run query
parameter, the stored project state, the state observed after an attempted
restart, the project's deployments, whether stopping a given deployment
returns 200 OK, the provisioned resources, and whether deleting a given
resource returns 200 OK. -/
structure DeleteProjectEnv where
  dryRun : Option Bool
  state : ProjectState
  stateAfterRestart : ProjectState
  deployments : List Deployment
  stopSucceeds : Nat → Bool
  resources : List String
  resourceDeleteSucceeds : String → Bool

/-- The handler's loop over running deployments: call stop_deployment on
each in order; on the first non-OK response, fail with
ProjectHasRunningDeployment. The stop call itself happens before its
status is checked, so the effect is recorded either way. -/
def stopRunningDeployments (stopOk : Nat → Bool) :
    List Deployment → Option ErrorKind × List GwEffect
  | [] => (none, [])
  | d :: ds =>
    if stopOk d.id then
      let r := stopRunningDeployments stopOk ds
      (r.1, .stopDeployment d.id :: r.2)
    else
      (some .projectHasRunningDeployment, [.stopDeployment d.id])

/-- delete_project from src/gateway/src/api/latest.rs: honor the legacy
dry_run no-op, restart a project that is neither ready nor stopped (failing
with ProjectCorrupted if it does not come back ready), refuse when any
deployment is outside Running/Completed/Crashed/Stopped, stop the running
deployments, delete all resources (collecting failures into
ProjectHasResources), then run the delete task and remove the project row. -/
def delete_project (e : DeleteProjectEnv) : Except ErrorKind String × List GwEffect :=
  if e.dryRun == some true then
    (.ok "dry run is no longer supported", [])
  else
    let projectDeletable := e.state.isReady || e.state.isStopped
    let preFx : List GwEffect := if projectDeletable then [] else [.restartTask]
    if !projectDeletable && !e.stateAfterRestart.isReady then
      (.error .projectCorrupted, preFx)
    else
      let deployments := sortByLastUpdate e.deployments
      if hasBadState deployments then
        (.error .projectHasBuildingDeployment, preFx)
      else
        let runningDeployments := deployments.filter fun d => d.state == .running
        let stopped := stopRunningDeployments e.stopSucceeds runningDeployments
        match stopped.1 with
        | some k => (.error k, preFx ++ stopped.2)
        | none =>
          let deleteFails := e.resources.filter fun r => !e.resourceDeleteSucceeds r
          let resFx := e.resources.map GwEffect.deleteResource
          if !deleteFails.isEmpty then
            (.error (.projectHasResources deleteFails), preFx ++ stopped.2 ++ resFx)
          else
            (.ok "project successfully deleted",
              preFx ++ stopped.2 ++ resFx ++ [.deleteProjectTask, .deleteProjectRow])

/-- A concrete environment exercising the good path of delete_project:
project ready, one running and one completed deployment, one resource,
all downstream calls succeed. -/
def deleteEnvExample : DeleteProjectEnv :=
  { dryRun := none
    state := .ready
    stateAfterRestart := .ready
    deployments :=
      [ { id := 1, state := .running, lastUpdate := 10 },
        { id := 2, state := .completed, lastUpdate := 5 } ]
    stopSucceeds := fun _ => true
    resources := ["database"]
    resourceDeleteSucceeds := fun _ => true }

/-! ## C2: health scheduler gate (src/gateway/src/main.rs 94-139) -/

/-- SVC_DEGRADED_THRESHOLD from src/gateway/src/api/latest.rs. -/
def SVC_DEGRADED_THRESHOLD : Nat := 128

/-- Modelled from the spec: WORKER_QUEUE_SIZE, the bounded channel capacity
of the task worker (gateway worker.rs is not under src/); spec section 4.6
recommends 2048. -/
def WORKER_QUEUE_SIZE : Nat := 2048

/-- Events of one tick of the health scheduler: enqueueing a refresh task
for a project, and awaiting its handle. -/
inductive HcEvent
  | enqueueRefresh (projectName : String)
  | awaitHandle (projectName : String)
deriving DecidableEq, Repr

/-- The scheduler's per-tick loop body: for each Ready project in order,
enqueue one refresh task and await its handle before moving on. -/
def healthCheckLoop : List String → List HcEvent
  | [] => []
  | p :: ps => .enqueueRefresh p :: .awaitHandle p :: healthCheckLoop ps

/-- One tick of the ambulance loop in src/gateway/src/main.rs: when
sender.capacity() (the queue's remaining capacity) is below
WORKER_QUEUE_SIZE - SVC_DEGRADED_THRESHOLD the tick is skipped entirely;
otherwise every Ready project gets exactly one refresh task, each awaited
before the next is enqueued. -/
def healthCheckTick (senderCapacity : Nat) (readyProjects : List String) : List HcEvent :=
  if senderCapacity < WORKER_QUEUE_SIZE - SVC_DEGRADED_THRESHOLD then []
  else healthCheckLoop readyProjects

/-! ## C3: custom-domain certificate renewal (src/gateway/src/api/latest.rs 827-906) -/

/-- Modelled from the spec: RENEWAL_VALIDITY_THRESHOLD_IN_DAYS (gateway
tls.rs is not under src/); spec section 4.2 fixes the renewal window at 30
days. -/
def RENEWAL_VALIDITY_THRESHOLD_IN_DAYS : Int := 30

/-- Side effects of the renewal handler, in order: persisting the new
certificate for the domain, then hot-swapping it into the resolver. -/
inductive RenewEffect
  | storeCustomDomain (certs privateKey : String)
  | servePem (certs privateKey : String)
deriving DecidableEq, Repr

/-- Everything the renewal handler reads once the stored certificate has
been parsed: the project name, whole days of not_after - now as reported by
x509 (none when the subtraction fails, which unwrap_or_default turns into a
zero duration), and the outcome of the ACME create_certificate call. -/
structure RenewEnv where
  projectName : String
  daysUntilExpiry : Option Int
  acmeResult : Option (String × String)

/-- renew_custom_domain_acme_certificate from src/gateway/src/api/latest.rs:
compute diff = not_after - now (defaulting to zero when it cannot be
computed); when diff in whole days is at most the 30-day threshold, issue a
new certificate, store it and serve it; otherwise skip, reporting the
remaining validity (the source renders the whole Duration, abbreviated here
to its day count). An ACME failure is returned as an error with no effect. -/
def renew_custom_domain (e : RenewEnv) : Except ErrorKind String × List RenewEffect :=
  let diff : Int := e.daysUntilExpiry.getD 0
  if diff ≤ RENEWAL_VALIDITY_THRESHOLD_IN_DAYS then
    match e.acmeResult with
    | some (certs, privateKey) =>
      (.ok ("\"Certificate renewed for " ++ e.projectName ++ " project.\""),
        [.storeCustomDomain certs privateKey, .servePem certs privateKey])
    | none => (.error .internal, [])
  else
    (.ok ("\"Certificate renewal skipped, " ++ e.projectName ++
        " project certificate still valid for " ++ toString diff ++ " days.\""), [])

/-! ## C4: create_project idle_minutes (src/gateway/src/api/latest.rs 344-398) -/

/-- Modelled from the spec: ProjectName::is_cch_project (common
models/project.rs is not under src/); spec sections 4.1 and 4.5 make the
cch name prefix the marker of the restricted project class. -/
def is_cch_project (name : String) : Bool := "cch".toList.isPrefixOf name.toList

/-- Everything the create_project handler reads: the requested name and
config, the caller's admin flag, the result of the project-count/tier
admission check, whether global capacity admits the project, and whether
the store insert succeeds (none) or fails (some kind). -/
structure CreateProjectEnv where
  projectName : String
  requestedIdleMinutes : Nat
  isAdmin : Bool
  canCreateProject : Bool
  capacityOk : Bool
  storeCreateError : Option ErrorKind

/-- The created project row as far as this development needs it. -/
structure CreatedProject where
  name : String
  idleMinutes : Nat
deriving DecidableEq, Repr

/-- create_project from src/gateway/src/api/latest.rs: non-admins are
gated on global capacity; the store create (which itself enforces
can_create_project) receives idle_minutes 5 for a cch-class name and the
request body's idle_minutes otherwise. -/
def create_project (e : CreateProjectEnv) : Except ErrorKind CreatedProject :=
  if !e.isAdmin && !e.capacityOk then
    .error .capacityExhausted
  else if !e.canCreateProject then
    .error .projectLimitExceeded
  else
    match e.storeCreateError with
    | some k => .error k
    | none =>
      .ok { name := e.projectName
            idleMinutes := if is_cch_project e.projectName then 5 else e.requestedIdleMinutes }

/-! ## C5: destroy_project idempotence (src/gateway/src/api/latest.rs 400-435) -/

/-- The ProjectInfo fields the destroy handler manipulates. -/
structure ProjectInfoM where
  id : String
  name : String
  state : ProjectState
  idleMinutes : Nat
deriving DecidableEq, Repr

/-- destroy_project from src/gateway/src/api/latest.rs: when the project is
already Destroyed, return its info unchanged without sending any task;
otherwise send a destroy task and answer with state Destroying. The Bool
records whether a destroy task was enqueued. -/
def destroy_project (p : ProjectInfoM) : ProjectInfoM × Bool :=
  if p.state == .destroyed then (p, false)
  else ({ p with state := .destroying }, true)

/-! ## C6: load endpoints (src/gateway/src/api/latest.rs 646-714) -/

/-- LoadResponse from common models stats. -/
structure LoadResponse where
  buildsCount : Nat
  hasCapacity : Bool
deriving DecidableEq, Repr

/-- The running-builds TtlCache, as its entries (build id, expiry instant)
plus its fixed capacity; an entry is live at instant now when its expiry
lies strictly in the future. -/
structure RunningBuilds where
  entries : List (Nat × Nat)
  capacity : Nat
deriving DecidableEq, Repr

/-- The entries TtlCache::iter yields at instant now: the non-expired ones. -/
def liveEntries (b : RunningBuilds) (now : Nat) : List (Nat × Nat) :=
  b.entries.filter fun e => now < e.2

/-- calculate_capacity from src/gateway/src/api/latest.rs: count the live
entries and compare against the cache capacity. -/
def calculate_capacity (b : RunningBuilds) (now : Nat) : LoadResponse :=
  let active := (liveEntries b now).length
  { buildsCount := active, hasCapacity := active < b.capacity }

/-- post_load from src/gateway/src/api/latest.rs: compute the load, then,
when there is capacity and the id was not already live in the cache, insert
it and count one more build. Returns the response and the updated entries. -/
def post_load (b : RunningBuilds) (now : Nat) (buildId : Nat) (expiry : Nat) :
    LoadResponse × RunningBuilds :=
  let load := calculate_capacity b now
  let present := (liveEntries b now).any fun e => e.1 == buildId
  if load.hasCapacity && !present then
    ({ load with buildsCount := load.buildsCount + 1 },
      { b with entries := b.entries ++ [(buildId, expiry)] })
  else
    (load, b)

/-! ## C7: sender-side git metadata (src/cargo-shuttle/src/lib.rs 1515-1542) -/

/-- GIT_STRINGS_MAX_LENGTH from src/common/src/constants.rs. -/
def GIT_STRINGS_MAX_LENGTH : Nat := 80

/-- s.chars().take(n).collect(): keep the first n characters. -/
def truncateChars (n : Nat) (s : List Char) : List Char := s.take n

/-- The git fields of DeploymentRequest (common/src/models/deployment.rs),
with strings as character lists. -/
structure GitMetadata where
  gitCommitId : Option (List Char)
  gitCommitMsg : Option (List Char)
  gitBranch : Option (List Char)
  gitDirty : Option Bool
deriving DecidableEq, Repr

/-- One hexadecimal digit, lowercase. -/
def hexDigit (n : Nat) : Char :=
  if n < 10 then Char.ofNat (48 + n) else Char.ofNat (87 + n)

/-- git2 Oid::to_string: a 20-byte object id printed as 40 lowercase hex
characters. -/
def oidToString (oidBytes : List Nat) : List Char :=
  oidBytes.flatMap fun b => [hexDigit (b / 16), hexDigit (b % 16)]

/-- The git-metadata part of Shuttle::deploy in src/cargo-shuttle/src/lib.rs:
the branch shorthand and the commit summary are sent through
chars().take(GIT_STRINGS_MAX_LENGTH); the commit id is sent as
commit.id().to_string() as is; the dirty flag passes through. -/
def senderGitMetadata (branchShorthand : Option (List Char)) (oidBytes : Option (List Nat))
    (commitSummary : Option (List Char)) (dirty : Option Bool) : GitMetadata :=
  { gitBranch := branchShorthand.map (truncateChars GIT_STRINGS_MAX_LENGTH)
    gitCommitId := oidBytes.map oidToString
    gitCommitMsg := commitSummary.map (truncateChars GIT_STRINGS_MAX_LENGTH)
    gitDirty := dirty }

/-! ## C8: bouncer vs user proxy host handling (src/gateway/src/proxy.rs) -/

/-- Hostnames as their dot-separated label lists. -/
def hostString (labels : List String) : String := String.intercalate "." labels

/-- fqdn is_subdomain_of: the parent's labels are a suffix of the
hostname's labels. -/
def isSubdomainOf (sub base : List String) : Bool := base.isSuffixOf sub

/-- The outcome of Bouncer::bounce on one request: the handler panics on
the unwrap of a missing or unparsable Host header, and otherwise answers
301 with a Location or a plain 404. -/
inductive BounceOutcome
  | panicked
  | redirect (location : String)
  | notFound
deriving DecidableEq, Repr

/-- Bouncer::bounce from src/gateway/src/proxy.rs: typed_get of the Host
header is unwrapped unconditionally, so a request without a parsable Host
panics; with a Host under the public wildcard or equal to a stored custom
domain the reply is a 301 to the https scheme of the same host and path,
otherwise a 404. -/
def bounce (public : List String) (customDomains : List (List String))
    (host : Option (List String)) (path : String) : BounceOutcome :=
  match host with
  | none => .panicked
  | some fqdn =>
    if isSubdomainOf fqdn public || customDomains.contains fqdn then
      .redirect ("https://" ++ hostString fqdn ++ path)
    else
      .notFound

/-- The Host-header step of UserProxy::proxy from src/gateway/src/proxy.rs:
a missing or unparsable Host header becomes a BadHost error instead of a
panic. -/
def userProxyHost (host : Option (List String)) : Except ErrorKind (List String) :=
  match host with
  | none => .error .badHost
  | some fqdn => .ok fqdn

/-! ## C9: pagination offset (src/gateway/src/api/latest.rs 322-342,
src/deployer/src/handlers/mod.rs 388-408) -/

/-- u32::MAX. -/
def U32_MAX : Nat := 4294967295

/-- The offset both paginated list endpoints hand to their store: limit
defaults to u32::MAX, page defaults to 0, and the offset is the u32
product limit * page, which wraps modulo 2^32 on overflow. -/
def paginationOffset (limit page : Option Nat) : Nat :=
  (limit.getD U32_MAX * page.getD 0) % 4294967296

/-! ## C10: ApiKey parse and generate (src/common/src/lib.rs 51-78) -/

/-- char::is_whitespace of Rust, implemented exactly for codepoints up to
0x17F (the range this development's statements use): the ASCII whitespace
control characters and space, next line (U+0085) and no-break space
(U+00A0). Codepoints above 0x17F are classified as non-whitespace here. -/
def rustIsWhitespace (c : Char) : Bool :=
  c.toNat == 0x09 || c.toNat == 0x0A || c.toNat == 0x0B || c.toNat == 0x0C ||
  c.toNat == 0x0D || c.toNat == 0x20 || c.toNat == 0x85 || c.toNat == 0xA0

/-- char::is_alphanumeric of Rust (is_alphabetic or is_numeric),
implemented exactly for codepoints up to 0x17F: ASCII letters and digits;
the Latin-1 letters ordinal a and o, micro sign and the No digits and
fractions of the Latin-1 supplement; the Latin-1 letter blocks without the
multiplication and division signs; and all of Latin Extended-A. Codepoints
above 0x17F are classified as non-alphanumeric here. -/
def rustIsAlphanumeric (c : Char) : Bool :=
  c.isAlphanum ||
  c.toNat == 0xAA || c.toNat == 0xB2 || c.toNat == 0xB3 || c.toNat == 0xB5 ||
  c.toNat == 0xB9 || c.toNat == 0xBA || c.toNat == 0xBC || c.toNat == 0xBD ||
  c.toNat == 0xBE ||
  (0xC0 ≤ c.toNat && c.toNat ≤ 0x17F && c.toNat != 0xD7 && c.toNat != 0xF7)

/-- str::trim of Rust: drop whitespace characters from both ends. -/
def rustTrim (s : List Char) : List Char :=
  ((s.dropWhile rustIsWhitespace).reverse.dropWhile rustIsWhitespace).reverse

/-- str::len of Rust: the UTF-8 byte length, not the character count. -/
def utf8Len (s : List Char) : Nat := (s.map Char.utf8Size).sum

/-- ApiKey::parse from src/common/src/lib.rs: trim the key, collect an
error when some character is not alphanumeric and an error when the byte
length is not 16, and accept the trimmed key iff no error was collected. -/
def apiKeyParse (s : List Char) : Except (List String) (List Char) :=
  let key := rustTrim s
  let errors : List String :=
    (if key.all rustIsAlphanumeric then []
      else ["The API key should consist of only alphanumeric characters."]) ++
    (if utf8Len key == 16 then []
      else ["The API key should be exactly 16 characters in length."])
  if errors.isEmpty then .ok key else .error errors

/-- The alphabet of rand's Alphanumeric distribution, which
ApiKey::generate samples 16 characters from. -/
def alphanumericAlphabet : List Char :=
  "ABCDEFGHIJKLMNOPQRSTUVWXYZabcdefghijklmnopqrstuvwxyz0123456789".toList

/-- A string of eight copies of the two-byte letter capital A with macron
(U+0100): eight characters, sixteen UTF-8 bytes, every character
alphanumeric. -/
def eightMacronKey : List Char := List.replicate 8 (Char.ofNat 0x100)

/-! ## Concrete inputs used by the witnesses -/

/-- A renewal environment with 10 whole days of validity left and a
successful ACME issuance. -/
def renewEnvExample : RenewEnv :=
  { projectName := "matrix", daysUntilExpiry := some 10, acmeResult := some ("CERT", "KEY") }

/-- A cch-class create request asking for 90 idle minutes. -/
def createEnvCchExample : CreateProjectEnv :=
  { projectName := "cch23-matrix", requestedIdleMinutes := 90, isAdmin := false,
    canCreateProject := true, capacityOk := true, storeCreateError := none }

/-- The project row created from createEnvCchExample. -/
def cchCreatedExample : CreatedProject := { name := "cch23-matrix", idleMinutes := 5 }

/-- A 20-byte git object id. -/
def oidExample : List Nat := List.replicate 20 171

/-- A project already in the Destroyed state. -/
def destroyedInfoExample : ProjectInfoM :=
  { id := "01H7LPSQ9ZQX5S1MFJ7H8K2QVZ", name := "matrix", state := .destroyed, idleMinutes := 30 }

/-! ## Helper lemmas -/

theorem mem_insertByLastUpdate {a d : Deployment} {ds : List Deployment} :
    a ∈ insertByLastUpdate d ds ↔ a ∈ d :: ds := by
  induction ds with
  | nil => simp [insertByLastUpdate]
  | cons e es ih =>
    simp only [insertByLastUpdate]
    split
    · exact Iff.rfl
    · simp only [List.mem_cons] at ih ⊢
      rw [ih]
      tauto

theorem mem_sortByLastUpdate {a : Deployment} {ds : List Deployment} :
    a ∈ sortByLastUpdate ds ↔ a ∈ ds := by
  induction ds with
  | nil => exact Iff.rfl
  | cons d es ih =>
    simp only [sortByLastUpdate, mem_insertByLastUpdate, List.mem_cons]
    rw [ih]

theorem hasBadState_sortByLastUpdate (ds : List Deployment) :
    hasBadState (sortByLastUpdate ds) = hasBadState ds := by
  rw [Bool.eq_iff_iff]
  simp only [hasBadState, List.any_eq_true, mem_sortByLastUpdate]

theorem stopRunningDeployments_all_ok (stopOk : Nat → Bool) (rs : List Deployment)
    (h : ∀ n, stopOk n = true) :
    stopRunningDeployments stopOk rs = (none, rs.map fun d => GwEffect.stopDeployment d.id) := by
  induction rs with
  | nil => rfl
  | cons d ds ih => simp [stopRunningDeployments, h, ih]

theorem stopRunningDeployments_fst_ne (stopOk : Nat → Bool) (rs : List Deployment) :
    (stopRunningDeployments stopOk rs).1 ≠ some ErrorKind.projectHasBuildingDeployment := by
  induction rs with
  | nil => simp [stopRunningDeployments]
  | cons d ds ih =>
    simp only [stopRunningDeployments]
    split
    · exact ih
    · simp

/-! ## C1 -/

/-- C1: for a real (non dry-run) delete of a project that is ready or
stopped, if any deployment lies outside Running / Completed / Crashed /
Stopped, delete_project fails with ProjectHasBuildingDeployment and the
project row is not removed; if every deployment lies in that set, the call
never fails with ProjectHasBuildingDeployment, and when the downstream
stop and resource-delete calls succeed it deletes the project after having
issued a stop for every running deployment. -/
theorem delete_project_requires_settled_deployments (e : DeleteProjectEnv)
    (hdry : e.dryRun ≠ some true)
    (hstate : (e.state.isReady || e.state.isStopped) = true) :
    (hasBadState e.deployments = true →
      (delete_project e).1 = .error .projectHasBuildingDeployment ∧
      GwEffect.deleteProjectRow ∉ (delete_project e).2) ∧
    (hasBadState e.deployments = false →
      (delete_project e).1 ≠ .error .projectHasBuildingDeployment ∧
      ((∀ n, e.stopSucceeds n = true) → (∀ r, e.resourceDeleteSucceeds r = true) →
        (delete_project e).1 = .ok "project successfully deleted" ∧
        GwEffect.deleteProjectRow ∈ (delete_project e).2 ∧
        ∀ d ∈ e.deployments, d.state = .running →
          GwEffect.stopDeployment d.id ∈ (delete_project e).2)) := by
  have hdry' : (e.dryRun == some true) = false := beq_eq_false_iff_ne.mpr hdry
  constructor
  · intro hbad
    simp [delete_project, hdry', hstate, hasBadState_sortByLastUpdate, hbad]
  · intro hgood
    constructor
    · simp only [delete_project, hdry', Bool.false_eq_true, if_false, hstate, Bool.not_true,
        Bool.false_and, hasBadState_sortByLastUpdate, hgood]
      split
      · next k heq =>
        intro hcontra
        apply stopRunningDeployments_fst_ne e.stopSucceeds
          ((sortByLastUpdate e.deployments).filter fun d => d.state == .running)
        rw [heq]
        simp only [Prod.fst] at hcontra ⊢
        injection hcontra with h1
        rw [h1]
      · split
        · simp
        · simp
    · intro hstops hres
      have hstop := stopRunningDeployments_all_ok e.stopSucceeds
        ((sortByLastUpdate e.deployments).filter fun d => d.state == .running) hstops
      have hfails : (e.resources.filter fun r => !e.resourceDeleteSucceeds r) = [] := by
        simp [List.filter_eq_nil_iff, hres]
      refine ⟨?_, ?_, ?_⟩
      · simp [delete_project, hdry', hstate, hasBadState_sortByLastUpdate, hgood, hstop, hfails]
      · simp [delete_project, hdry', hstate, hasBadState_sortByLastUpdate, hgood, hstop, hfails]
      · intro d hd hrun
        have heq : delete_project e =
            (.ok "project successfully deleted",
              (((sortByLastUpdate e.deployments).filter fun x => x.state == .running).map
                  fun x => GwEffect.stopDeployment x.id) ++
                (e.resources.map GwEffect.deleteResource ++
                  [GwEffect.deleteProjectTask, GwEffect.deleteProjectRow])) := by
          simp [delete_project, hdry', hstate, hasBadState_sortByLastUpdate, hgood, hstop, hfails]
        rw [heq]
        have hmem : d ∈ (sortByLastUpdate e.deployments).filter fun x => x.state == .running := by
          simp [List.mem_filter, mem_sortByLastUpdate, hd, hrun]
        simp only [List.mem_append, List.mem_map]
        exact Or.inl ⟨d, hmem, rfl⟩

/-- C1 witness: a ready project with one running and one completed
deployment and one resource, all downstream calls succeeding, is deleted. -/
theorem delete_project_requires_settled_deployments_witness :
    (delete_project deleteEnvExample).1 = .ok "project successfully deleted" ∧
    GwEffect.deleteProjectRow ∈ (delete_project deleteEnvExample).2 := by
  have h := delete_project_requires_settled_deployments deleteEnvExample
    (by simp [deleteEnvExample]) (by simp [deleteEnvExample, ProjectState.isReady])
  have h2 := (h.2 (by simp [deleteEnvExample, hasBadState, goodDeleteState])).2
    (fun n => rfl) (fun r => rfl)
  exact ⟨h2.1, h2.2.1⟩

/-! ## C2 -/

theorem healthCheckLoop_flatMap (ready : List String) :
    healthCheckLoop ready = ready.flatMap fun p => [.enqueueRefresh p, .awaitHandle p] := by
  induction ready with
  | nil => rfl
  | cons p ps ih => simp [healthCheckLoop, ih]

/-- C2 counterexample: at a tick where the worker queue's remaining
capacity is 500, strictly greater than SVC_DEGRADED_THRESHOLD = 128, the
scheduler nevertheless enqueues nothing for the Ready projects, because
the code gates on capacity ≥ WORKER_QUEUE_SIZE - SVC_DEGRADED_THRESHOLD
= 1920, not on capacity > SVC_DEGRADED_THRESHOLD. -/
theorem healthCheckTick_skips_despite_spare_capacity :
    SVC_DEGRADED_THRESHOLD < 500 ∧ healthCheckTick 500 ["matrix"] = [] := by
  constructor
  · decide
  · rfl

/-- C2 amended: a tick enqueues the refresh tasks iff the queue's remaining
capacity is at least WORKER_QUEUE_SIZE - SVC_DEGRADED_THRESHOLD (at most
SVC_DEGRADED_THRESHOLD slots used); when it runs, it emits exactly one
refresh task per Ready project, awaiting each handle before enqueueing the
next. -/
theorem health_scheduler_tick (cap : Nat) (ready : List String) :
    (cap < WORKER_QUEUE_SIZE - SVC_DEGRADED_THRESHOLD → healthCheckTick cap ready = []) ∧
    (WORKER_QUEUE_SIZE - SVC_DEGRADED_THRESHOLD ≤ cap →
      healthCheckTick cap ready =
        ready.flatMap fun p => [.enqueueRefresh p, .awaitHandle p]) := by
  constructor
  · intro h
    simp [healthCheckTick, h]
  · intro h
    rw [healthCheckTick, if_neg (by omega), healthCheckLoop_flatMap]

/-- C2 witness: with remaining capacity 2000 and one Ready project, the
tick enqueues a single refresh task and awaits it. -/
theorem health_scheduler_tick_witness :
    healthCheckTick 2000 ["matrix"] =
      [.enqueueRefresh "matrix", .awaitHandle "matrix"] := by
  have h := (health_scheduler_tick 2000 ["matrix"]).2 (by decide)
  simpa using h

/-! ## C3 -/

/-- C3: when the stored certificate still has strictly more than 30 whole
days of validity (hence 31 or more), renewal is skipped and the response
reports the days remaining with no effect; when the expiry is absent
(defaulting to a zero duration) or at most 30 whole days away and the ACME
call succeeds, a new certificate is stored and served. -/
theorem renew_custom_domain_policy (e : RenewEnv) :
    (∀ d, e.daysUntilExpiry = some d → RENEWAL_VALIDITY_THRESHOLD_IN_DAYS < d →
      renew_custom_domain e =
        (.ok ("\"Certificate renewal skipped, " ++ e.projectName ++
          " project certificate still valid for " ++ toString d ++ " days.\""), [])) ∧
    (e.daysUntilExpiry.getD 0 ≤ RENEWAL_VALIDITY_THRESHOLD_IN_DAYS →
      ∀ certs privateKey, e.acmeResult = some (certs, privateKey) →
      renew_custom_domain e =
        (.ok ("\"Certificate renewed for " ++ e.projectName ++ " project.\""),
          [.storeCustomDomain certs privateKey, .servePem certs privateKey])) := by
  constructor
  · intro d hd hgt
    rw [renew_custom_domain]
    simp only [hd, Option.getD_some]
    rw [if_neg (by omega)]
  · intro hle certs privateKey hacme
    rw [renew_custom_domain]
    simp only [hacme]
    rw [if_pos hle]

/-- C3 witness: a certificate with 10 whole days left and a successful ACME
issuance is renewed, stored and served. -/
theorem renew_custom_domain_policy_witness :
    renew_custom_domain renewEnvExample =
      (.ok "\"Certificate renewed for matrix project.\"",
        [.storeCustomDomain "CERT" "KEY", .servePem "CERT" "KEY"]) := by
  have h := (renew_custom_domain_policy renewEnvExample).2 (by decide) "CERT" "KEY" rfl
  simpa [renewEnvExample] using h

/-! ## C4 -/

/-- C4: whenever create_project succeeds, a cch-prefixed project name
forces idle_minutes to 5 regardless of the requested value, and any other
name gets the requested idle_minutes. -/
theorem create_project_idle_minutes (e : CreateProjectEnv) (p : CreatedProject)
    (h : create_project e = .ok p) :
    (is_cch_project e.projectName = true → p.idleMinutes = 5) ∧
    (is_cch_project e.projectName = false → p.idleMinutes = e.requestedIdleMinutes) := by
  rw [create_project] at h
  split at h
  · exact absurd h (by simp)
  · split at h
    · exact absurd h (by simp)
    · split at h
      · exact absurd h (by simp)
      · injection h with h
        constructor
        · intro hcch
          rw [← h]
          simp [hcch]
        · intro hcch
          rw [← h]
          simp [hcch]

/-- C4 witness: a cch-class create request asking for 90 idle minutes is
created with idle_minutes 5. -/
theorem create_project_idle_minutes_witness :
    create_project createEnvCchExample = .ok cchCreatedExample ∧
    cchCreatedExample.idleMinutes = 5 := by
  refine ⟨rfl, ?_⟩
  exact (create_project_idle_minutes createEnvCchExample cchCreatedExample rfl).1 rfl

/-! ## C5 -/

/-- C5: destroying a project whose state is already Destroyed is a no-op:
the info is returned unchanged and no destroy task is enqueued. -/
theorem destroy_project_destroyed_noop (p : ProjectInfoM) (h : p.state = .destroyed) :
    destroy_project p = (p, false) := by
  rw [destroy_project, if_pos]
  rw [h]
  rfl

/-- C5 witness: a concrete destroyed project is returned unchanged with no
task enqueued. -/
theorem destroy_project_destroyed_noop_witness :
    destroy_project destroyedInfoExample = (destroyedInfoExample, false) :=
  destroy_project_destroyed_noop destroyedInfoExample rfl

/-! ## C6 -/

/-- C6: the has_capacity flag computed by calculate_capacity — and hence
returned by the load endpoints — is true iff the number of (live) entries
in the running-builds map is strictly below the map's capacity. -/
theorem has_capacity_iff (b : RunningBuilds) (now : Nat) :
    ((calculate_capacity b now).hasCapacity = true ↔
      (liveEntries b now).length < b.capacity) ∧
    (∀ buildId expiry,
      ((post_load b now buildId expiry).1.hasCapacity = true ↔
        (liveEntries b now).length < b.capacity)) := by
  have hcalc : (calculate_capacity b now).hasCapacity = true ↔
      (liveEntries b now).length < b.capacity := by
    simp [calculate_capacity]
  refine ⟨hcalc, fun buildId expiry => ?_⟩
  rw [post_load]
  split
  · exact hcalc
  · exact hcalc

/-! ## C7 -/

theorem oidToString_length (oidBytes : List Nat) :
    (oidToString oidBytes).length = 2 * oidBytes.length := by
  induction oidBytes with
  | nil => rfl
  | cons b bs ih =>
    simp [oidToString] at ih ⊢
    omega

/-- C7: in the deploy request the client assembles, the branch and the
commit summary are exactly the 80-character truncations of their sources
(hence at most 80 characters), and the commit id — a 40-hex-character
object id string — is also at most 80 characters. -/
theorem sender_git_metadata_bounded (branchShorthand commitSummary : Option (List Char))
    (oidBytes : Option (List Nat)) (dirty : Option Bool)
    (hoid : ∀ bs, oidBytes = some bs → bs.length = 20) :
    (∀ s, (senderGitMetadata branchShorthand oidBytes commitSummary dirty).gitBranch = some s →
      s.length ≤ GIT_STRINGS_MAX_LENGTH ∧
      ∃ t, branchShorthand = some t ∧ s = truncateChars GIT_STRINGS_MAX_LENGTH t) ∧
    (∀ s, (senderGitMetadata branchShorthand oidBytes commitSummary dirty).gitCommitMsg = some s →
      s.length ≤ GIT_STRINGS_MAX_LENGTH ∧
      ∃ t, commitSummary = some t ∧ s = truncateChars GIT_STRINGS_MAX_LENGTH t) ∧
    (∀ s, (senderGitMetadata branchShorthand oidBytes commitSummary dirty).gitCommitId = some s →
      s.length ≤ GIT_STRINGS_MAX_LENGTH) := by
  refine ⟨?_, ?_, ?_⟩
  · intro s hs
    simp only [senderGitMetadata, Option.map_eq_some'] at hs
    obtain ⟨t, ht, hst⟩ := hs
    refine ⟨?_, t, ht, hst.symm⟩
    rw [← hst]
    simp [truncateChars]
  · intro s hs
    simp only [senderGitMetadata, Option.map_eq_some'] at hs
    obtain ⟨t, ht, hst⟩ := hs
    refine ⟨?_, t, ht, hst.symm⟩
    rw [← hst]
    simp [truncateChars]
  · intro s hs
    simp only [senderGitMetadata, Option.map_eq_some'] at hs
    obtain ⟨bs, hbs, hsbs⟩ := hs
    rw [← hsbs, oidToString_length, hoid bs hbs]
    simp [GIT_STRINGS_MAX_LENGTH]

/-- C7 witness: a 20-byte object id is rendered as a 40-character commit id,
within the 80-character bound. -/
theorem sender_git_metadata_bounded_witness :
    (oidToString oidExample).length ≤ GIT_STRINGS_MAX_LENGTH := by
  have h := (sender_git_metadata_bounded none none (some oidExample) none
    (fun bs hbs => by rw [← Option.some.inj hbs]; rfl)).2.2
  exact h (oidToString oidExample) rfl

/-! ## C8 -/

/-- C8: the bouncer panics on a request without a parsable Host header,
while the user proxy turns the same condition into a BadHost error; with a
parsable Host it answers 301 to the https scheme when the host is under
the public wildcard or matches a stored custom domain, and 404 otherwise. -/
theorem bouncer_unwraps_host (public : List String) (customDomains : List (List String))
    (path : String) (fqdn : List String) :
    bounce public customDomains none path = .panicked ∧
    userProxyHost none = .error .badHost ∧
    ((isSubdomainOf fqdn public || customDomains.contains fqdn) = true →
      bounce public customDomains (some fqdn) path =
        .redirect ("https://" ++ hostString fqdn ++ path)) ∧
    ((isSubdomainOf fqdn public || customDomains.contains fqdn) = false →
      bounce public customDomains (some fqdn) path = .notFound) := by
  refine ⟨rfl, rfl, ?_, ?_⟩
  · intro h
    simp only [bounce]
    rw [if_pos h]
  · intro h
    simp only [bounce]
    rw [if_neg]
    intro hc
    rw [h] at hc
    exact Bool.false_ne_true hc

/-- C8 witness: a wildcard subdomain is 301-redirected to https, and a
missing Host panics the bouncer but yields BadHost in the user proxy. -/
theorem bouncer_unwraps_host_witness :
    bounce ["shuttleapp", "rs"] [] none "/" = .panicked ∧
    userProxyHost none = .error .badHost ∧
    bounce ["shuttleapp", "rs"] [] (some ["matrix", "shuttleapp", "rs"]) "/" =
      .redirect "https://matrix.shuttleapp.rs/" := by
  have h := bouncer_unwraps_host ["shuttleapp", "rs"] [] "/" ["matrix", "shuttleapp", "rs"]
  refine ⟨h.1, h.2.1, ?_⟩
  rw [h.2.2.1 (by rfl)]
  rfl

/-! ## C9 -/

/-- C9 counterexample: at page 1 with the limit omitted (defaulting to
u32::MAX) the u32 multiplication does not overflow: the computed offset is
exactly limit times page, contradicting the claim that every page at least
1 overflows and loses the product. -/
theorem pagination_no_overflow_at_page_one :
    1 ≤ 1 ∧ paginationOffset none (some 1) = U32_MAX * 1 := by
  constructor
  · exact Nat.le_refl 1
  · rfl

/-- C9 amended: with the limit omitted (defaulting to u32::MAX) and the
page omitted (defaulting to 0) the offset is 0; at page 1 the offset is
exactly u32::MAX with no overflow; for every page from 2 up to u32::MAX
the mathematical product u32::MAX times page is at least 2^32, so the u32
multiplication wraps to 2^32 - page, which differs from the product. -/
theorem pagination_offset_overflow (p : Nat) (h2 : 2 ≤ p) (hmax : p ≤ U32_MAX) :
    paginationOffset none none = 0 ∧
    paginationOffset none (some 1) = U32_MAX ∧
    4294967296 ≤ U32_MAX * p ∧
    paginationOffset none (some p) = 4294967296 - p ∧
    paginationOffset none (some p) ≠ U32_MAX * p := by
  rw [U32_MAX] at hmax
  have key : U32_MAX * p = 4294967296 * (p - 1) + (4294967296 - p) := by
    rw [U32_MAX]
    cases Nat.exists_eq_add_of_le h2 with
    | intro k hk => subst hk; ring_nf; omega
  have hmod : paginationOffset none (some p) = 4294967296 - p := by
    rw [paginationOffset]
    simp only [Option.getD_none, Option.getD_some]
    rw [key, Nat.mul_comm, Nat.add_comm, Nat.add_mul_mod_self_right]
    exact Nat.mod_eq_of_lt (by omega)
  refine ⟨rfl, rfl, by omega, hmod, ?_⟩
  rw [hmod]
  omega

/-- C9 witness: at page 2 the offset wraps to 4294967294, not the true
product 8589934590. -/
theorem pagination_offset_overflow_witness :
    paginationOffset none (some 2) = 4294967294 ∧
    paginationOffset none (some 2) ≠ U32_MAX * 2 := by
  have h := pagination_offset_overflow 2 (Nat.le_refl 2) (by norm_num [U32_MAX])
  exact ⟨h.2.2.2.1, h.2.2.2.2⟩

/-! ## C10 -/

theorem utf8Size_eq_one_of_lt {c : Char} (h : c.toNat < 128) : c.utf8Size = 1 := by
  unfold Char.utf8Size
  rw [if_pos]
  rw [UInt32.le_def, BitVec.le_def]
  show c.toNat ≤ 127
  omega

theorem mem_dropWhile {c : Char} {p : Char → Bool} :
    ∀ {s : List Char}, c ∈ s.dropWhile p → c ∈ s := by
  intro s
  induction s with
  | nil => simp
  | cons a l ih =>
    rw [List.dropWhile_cons]
    split
    · intro h
      exact List.mem_cons_of_mem a (ih h)
    · exact fun h => h

theorem mem_rustTrim {c : Char} {s : List Char} (h : c ∈ rustTrim s) : c ∈ s := by
  rw [rustTrim] at h
  rw [List.mem_reverse] at h
  have h2 := mem_dropWhile h
  rw [List.mem_reverse] at h2
  exact mem_dropWhile h2

theorem utf8Len_eq_length (t : List Char) (h : ∀ c ∈ t, c.toNat < 128) :
    utf8Len t = t.length := by
  induction t with
  | nil => rfl
  | cons a l ih =>
    rw [utf8Len] at ih ⊢
    simp only [List.map_cons, List.sum_cons, List.length_cons]
    rw [utf8Size_eq_one_of_lt (h a (List.mem_cons_self a l)),
      ih (fun c hc => h c (List.mem_cons_of_mem a hc))]
    omega

theorem dropWhile_eq_self_of_none (p : Char → Bool) (t : List Char)
    (h : ∀ c ∈ t, p c = false) : t.dropWhile p = t := by
  cases t with
  | nil => rfl
  | cons a l =>
    rw [List.dropWhile_cons_of_neg]
    rw [h a (List.mem_cons_self a l)]
    exact Bool.false_ne_true

theorem rustTrim_eq_self (s : List Char) (h : ∀ c ∈ s, rustIsWhitespace c = false) :
    rustTrim s = s := by
  rw [rustTrim, dropWhile_eq_self_of_none _ s h,
    dropWhile_eq_self_of_none _ s.reverse (fun c hc => h c (List.mem_reverse.mp hc)),
    List.reverse_reverse]

theorem alphabet_facts : ∀ c ∈ alphanumericAlphabet,
    rustIsAlphanumeric c = true ∧ rustIsWhitespace c = false ∧ c.toNat < 128 := by
  decide

theorem apiKeyParse_isOk_eq (s : List Char) :
    (apiKeyParse s).isOk =
      ((rustTrim s).all rustIsAlphanumeric && (utf8Len (rustTrim s) == 16)) := by
  rw [apiKeyParse]
  by_cases h1 : (rustTrim s).all rustIsAlphanumeric = true <;>
    by_cases h2 : (utf8Len (rustTrim s) == 16) = true <;>
      simp [h1, h2, Except.isOk, Except.toBool]

/-- C10 counterexample: the claim says parse accepts exactly the trimmed
strings of 16 alphanumeric characters, but parse checks the UTF-8 byte
length: eight copies of the two-byte alphanumeric letter U+0100 — eight
characters, not sixteen — are accepted. -/
theorem apiKeyParse_counts_bytes_not_chars :
    (apiKeyParse eightMacronKey).isOk = true ∧
    (rustTrim eightMacronKey).length = 8 ∧
    utf8Len eightMacronKey = 16 ∧
    (∀ c ∈ eightMacronKey, rustIsAlphanumeric c = true) := by
  decide

/-- C10 amended: for ASCII input (where bytes coincide with characters),
parse accepts exactly the strings whose trimmed form consists of 16
alphanumeric characters; in general the length check counts UTF-8 bytes.
Moreover any 16-character key drawn from the generate alphabet (the ASCII
alphanumerics) is accepted, so generate / parse round-trips. -/
theorem apiKeyParse_ascii_iff (s : List Char) (hascii : ∀ c ∈ s, c.toNat < 128) :
    ((apiKeyParse s).isOk = true ↔
      ((rustTrim s).all rustIsAlphanumeric = true ∧ (rustTrim s).length = 16)) ∧
    (s.length = 16 → (∀ c ∈ s, c ∈ alphanumericAlphabet) →
      (apiKeyParse s).isOk = true) := by
  have hlen : utf8Len (rustTrim s) = (rustTrim s).length :=
    utf8Len_eq_length _ fun c hc => hascii c (mem_rustTrim hc)
  have main : (apiKeyParse s).isOk = true ↔
      ((rustTrim s).all rustIsAlphanumeric = true ∧ (rustTrim s).length = 16) := by
    rw [apiKeyParse_isOk_eq, Bool.and_eq_true, beq_iff_eq, hlen]
  refine ⟨main, ?_⟩
  intro hlen16 halpha
  have htrim : rustTrim s = s :=
    rustTrim_eq_self s fun c hc => (alphabet_facts c (halpha c hc)).2.1
  refine main.mpr ⟨?_, ?_⟩
  · rw [htrim]
    exact List.all_eq_true.mpr fun c hc => (alphabet_facts c (halpha c hc)).1
  · rw [htrim]
    exact hlen16

/-- C10 witness: a concrete 16-character alphanumeric key is accepted. -/
theorem apiKeyParse_ascii_iff_witness :
    (apiKeyParse "abcdefgh12345678".toList).isOk = true := by
  have h := apiKeyParse_ascii_iff "abcdefgh12345678".toList (by decide)
  exact h.2 (by decide) (by decide)
